import Mathlib

/-!
Verification of the MIDAS engine core (MIDAS/engine.py) against its
natural-language specification.

The development shallowly embeds the parts of the source that the claims
touch:

* the boundary-resolution device function assign_2d (source lines 535-621),
  over exact reals, with the complex-number arithmetic of the source mapped
  to Mathlib Complex numbers (cmath.rect, cmath.phase, cmath.exp, abs);
* the per-lane body of the CUDA kernel CUDA_step for a 2-dimensional run
  (source lines 426-529), with the maybe-unassigned local variable da of the
  source modeled as an Option that is some only on the one path (atype == 1)
  where the source assigns it; a lane whose final values depend on the
  unassigned variable yields none (an undefined destination value);
* the double-buffer bookkeeping of Engine.run / Engine.step
  (source lines 269-329): device buffers are lists of Option values, where
  none stands for device memory that was allocated and never written;
* the parameter-serialization dimension dispatch of Engine.run
  (source lines 333-380) and the dimension dispatch of the kernel update
  section (source lines 515-529);
* Engine.add_group (source lines 179-239) over exact rationals, with the
  numpy random draws supplied by explicit oracle arguments, and Python
  dictionary access and exceptions made explicit;
* a schedule-level model of the per-step parallel dispatch: every lane
  writes its own row of the destination buffer, in an arbitrary order given
  by a list of lane indices.

Float32 arithmetic of the source is modeled as exact real (or rational)
arithmetic throughout.
-/

namespace MIDAS

/-- Arena kind, from enums.py (Arena IntEnum: CIRCULAR = 0, RECTANGULAR = 1)
and the serialization in Engine.run (param[0] = 0 if circular else 1). -/
inductive Arena
  | circular
  | rectangular
deriving DecidableEq, Repr

/-- Model of cmath.rect: the complex number with modulus r and phase θ.
Python allows a negative r, giving the point at phase θ + π; the formula
r * exp(θ I) has exactly that behavior. -/
noncomputable def rect (r θ : ℝ) : ℂ :=
  (r : ℂ) * Complex.exp ((θ : ℝ) * Complex.I)

/-- Phase phi of the boundary-crossing point in the reflexive circular
branch of assign_2d (source line 558):
phi = phase(zv) + asin((z0.imag * cos(phase(zv)) - z0.real * sin(phase(zv))) / arena_X). -/
noncomputable def crossingPhase (R : ℝ) (z0 zv : ℂ) : ℝ :=
  Complex.arg zv +
    Real.arcsin ((z0.im * Real.cos (Complex.arg zv) -
                  z0.re * Real.sin (Complex.arg zv)) / R)

/-- Output of the device function assign_2d: the four scalars px, py, vx, vy
that the kernel writes into p1[i,0], p1[i,1], v1[i,0], v1[i,1]. -/
structure BCOut where
  px : ℝ
  py : ℝ
  vx : ℝ
  vy : ℝ

/-- Embedding of the device function assign_2d (source lines 535-621).
Arguments are in source order: old position z0, candidate position z1,
candidate velocity zv, then the deserialized parameters. The source
receives arena and the periodicity flags as float32 scalars that
Engine.run serialized from the arena kind and the Python booleans;
the embedding takes them already decoded. Local rebinding of z1 and zv
mirrors the in-place reassignment of the source. -/
noncomputable def assign_2d (z0 z1 zv : ℂ) (arena : Arena)
    (arena_X arena_Y : ℝ) (periodic_X periodic_Y : Bool) : BCOut :=
  match arena with
  | Arena.circular =>
      if arena_X < Complex.abs z1 then
        if periodic_X then
          let z1 := rect (2 * arena_X - Complex.abs z1) (Complex.arg z1 + Real.pi)
          ⟨z1.re, z1.im, zv.re, zv.im⟩
        else
          let φ := crossingPhase arena_X z0 zv
          let zc := rect arena_X φ
          let z1 := zc + ((Complex.abs zv - Complex.abs (zc - z0) : ℝ) : ℂ) *
              Complex.exp (((Real.pi + 2 * φ - Complex.arg zv : ℝ) : ℂ) * Complex.I)
          let zv := zv * Complex.exp (((Real.pi - 2 * (Complex.arg zv - φ) : ℝ) : ℂ) * Complex.I)
          ⟨z1.re, z1.im, zv.re, zv.im⟩
      else ⟨z1.re, z1.im, zv.re, zv.im⟩
  | Arena.rectangular =>
      let pvx : ℝ × ℝ :=
        if periodic_X then
          (if arena_X < z1.re then z1.re - 2 * arena_X
           else if z1.re < -arena_X then z1.re + 2 * arena_X
           else z1.re, zv.re)
        else
          if arena_X < z1.re then (2 * arena_X - z1.re, -zv.re)
          else if z1.re < -arena_X then (-2 * arena_X - z1.re, -zv.re)
          else (z1.re, zv.re)
      let pvy : ℝ × ℝ :=
        if periodic_Y then
          (if arena_Y < z1.im then z1.im - 2 * arena_Y
           else if z1.im < -arena_Y then z1.im + 2 * arena_Y
           else z1.im, zv.im)
        else
          if arena_Y < z1.im then (2 * arena_Y - z1.im, -zv.im)
          else if z1.im < -arena_Y then (-2 * arena_Y - z1.im, -zv.im)
          else (z1.im, zv.im)
      ⟨pvx.1, pvy.1, pvx.2, pvy.2⟩

/-- Deserialized per-run parameters read by one kernel lane in a
2-dimensional run (arena, arena_X, arena_Y, periodic_X, periodic_Y). -/
structure ArenaCfg where
  arena : Arena
  arena_X : ℝ
  arena_Y : ℝ
  periodic_X : Bool
  periodic_Y : Bool

/-- Value of the kernel-local variable da after the behavior section of
CUDA_step. The source assigns da only inside the branch
if atype[i] == 1: da = 0 (source lines 500-501); on every other agent
type the variable is never assigned, which the model records as none. -/
def kernel_da (atype : ℕ) : Option ℝ :=
  if atype = 1 then some 0 else none

/-- Per-lane body of CUDA_step for dim = 2 (source lines 426-529), for lane
i with source row (p0i, v0i), angular-noise coefficient anoise = noise[i,1]
and the normal sample drawn from the per-lane stream.

The source first copies the position row when atype == 0 (lines 440-442)
but does not end the lane there: control always reaches the update section,
which rotates the velocity by da + an and overwrites both destination rows
(lines 513-529). Since da is an unassigned local variable on every path
with atype different from 1, the values finally stored for such lanes
depend on an unassigned variable; the model returns none for them.
For atype == 1 the result is the pair (position row, velocity row)
written into the destination buffers. -/
noncomputable def cudaStepLane (cfg : ArenaCfg) (atype : ℕ) (p0i v0i : ℂ)
    (anoise sample : ℝ) : Option (ℂ × ℂ) :=
  match kernel_da atype with
  | none => none
  | some da =>
      let an := anoise * sample
      let zv := v0i * Complex.exp (((da + an : ℝ) : ℂ) * Complex.I)
      let z0 := p0i
      let z1 := z0 + zv
      let out := assign_2d z0 z1 zv cfg.arena cfg.arena_X cfg.arena_Y
                   cfg.periodic_X cfg.periodic_Y
      some (⟨out.px, out.py⟩, ⟨out.vx, out.vy⟩)

/-! Double-buffer bookkeeping of Engine.run and Engine.step. -/

/-- Host-side agent arrays at the moment Engine.run starts
(self.agents.pos and self.agents.vel, one row per agent). -/
structure HostAgents where
  pos : List (ℚ × ℚ)
  vel : List (ℚ × ℚ)

/-- Device-side buffer pairs of the CUDA holder. Each entry is one agent
row; none stands for a row of device memory that was allocated by
cuda.device_array and never written. -/
structure DeviceBuffers where
  p0 : List (Option (ℚ × ℚ))
  v0 : List (Option (ℚ × ℚ))
  p1 : List (Option (ℚ × ℚ))
  v1 : List (Option (ℚ × ℚ))

/-- Buffer state right after the CUDA preparation of Engine.run
(source lines 320-329): p0 and v0 receive the host arrays
(cuda.to_device), while p1 and v1 are fresh device allocations
(cuda.device_array) whose rows hold no written value. -/
def runInitBuffers (a : HostAgents) : DeviceBuffers :=
  { p0 := a.pos.map Option.some
    v0 := a.vel.map Option.some
    p1 := List.replicate a.pos.length Option.none
    v1 := List.replicate a.vel.length Option.none }

/-- Source buffer pair passed to CUDA_step by Engine.step for step index i
(source lines 276-291): for odd i the kernel reads (p0, v0), for even i
it reads (p1, v1). -/
def stepSourceBuffers (b : DeviceBuffers) (i : ℕ) :
    List (Option (ℚ × ℚ)) × List (Option (ℚ × ℚ)) :=
  if i % 2 = 1 then (b.p0, b.v0) else (b.p1, b.v1)

/-- Destination buffer pair written by CUDA_step for step index i and then
published by copy_to_host (source lines 276-296): for odd i the kernel
writes (p1, v1), for even i it writes (p0, v0). -/
def stepDestBuffers (b : DeviceBuffers) (i : ℕ) :
    List (Option (ℚ × ℚ)) × List (Option (ℚ × ℚ)) :=
  if i % 2 = 1 then (b.p1, b.v1) else (b.p0, b.v0)

/-! Parameter serialization and the dimension dispatch. -/

/-- Renders an Arena as the float param[0] of Engine.run
(0 if circular else 1). -/
def arenaCode : Arena → ℚ
  | Arena.circular => 0
  | Arena.rectangular => 1

/-- Geometry configuration, from the Geometry constructor. For a circular
arena the source stores one boolean in self.periodic; the model keeps a
list for both kinds and reads entry 0 in the circular case, matching the
expressions self.geom.periodic (circular, one boolean) and
self.geom.periodic[d] (rectangular) of Engine.run. -/
structure Geometry where
  dimension : ℕ
  arena : Arena
  arena_shape : List ℚ
  periodic : List Bool

/-- Float encoding of one periodicity flag as serialized by Engine.run:
param picks self.geom.periodic for a circular arena and
self.geom.periodic[d] for a rectangular one. -/
def periodicParam (g : Geometry) (d : ℕ) : ℚ :=
  match g.arena with
  | Arena.circular => if g.periodic.getD 0 false then 1 else 0
  | Arena.rectangular => if g.periodic.getD d false then 1 else 0

/-- Outcome of the parameter-serialization section of Engine.run
(source lines 333-380). The match on self.geom.dimension has cases for
1, 2 and 3 only; for every other dimension the local variable param is
never assigned and line 380 raises UnboundLocalError. No branch raises
any configuration error: the source defines no such exception. -/
inductive RunSetup
  | ok (param : List ℚ)
  | unboundLocalError
deriving DecidableEq, Repr

/-- Parameter serialization of Engine.run (source lines 333-380). -/
def paramSerialization (g : Geometry) : RunSetup :=
  match g.dimension with
  | 1 => RunSetup.ok [arenaCode g.arena, g.arena_shape.getD 0 0 / 2,
                      periodicParam g 0]
  | 2 => RunSetup.ok [arenaCode g.arena, g.arena_shape.getD 0 0 / 2,
                      g.arena_shape.getD 1 0 / 2,
                      periodicParam g 0, periodicParam g 1]
  | 3 => RunSetup.ok [arenaCode g.arena, g.arena_shape.getD 0 0 / 2,
                      g.arena_shape.getD 1 0 / 2, g.arena_shape.getD 2 0 / 2,
                      periodicParam g 0, periodicParam g 1, periodicParam g 2]
  | _ => RunSetup.unboundLocalError

/-- Reports whether the update section of CUDA_step writes the destination
rows for a given dimension: the match on dim at source line 515 has a
single case, 2. For every other dimension the kernel draws its noise and
returns without writing p1 or v1 (apart from the position copy of the
fixed branch), so no boundary handling of any kind runs. -/
def kernelUpdateWrites (dim : ℕ) : Bool :=
  dim = 2

/-! Embedding of Engine.add_group over exact rationals. -/

/-- Values a user may supply under the position or velocity key of an
initial-condition dictionary: None, a string, or an explicit array. -/
inductive PySpec
  | noneV
  | str (s : String)
  | arr (a : List (ℚ × ℚ))
deriving DecidableEq, Repr

/-- Values a user may supply under the speed key: a number or a vector. -/
inductive SpeedSpec
  | num (q : ℚ)
  | vec (l : List ℚ)
deriving DecidableEq, Repr

/-- User initial-condition dictionary with keys position, velocity, speed. -/
structure InitialCondition where
  position : PySpec
  velocity : PySpec
  speed : SpeedSpec
deriving DecidableEq, Repr

/-- Default initial condition built by add_group when the key
initial_condition is absent (source line 191). -/
def defaultIC : InitialCondition :=
  { position := PySpec.noneV, velocity := PySpec.noneV,
    speed := SpeedSpec.num (1 / 100) }

/-- Keyword arguments of add_group. The source tests membership of the key
initial_condition but then reads the key IC (source lines 188-189), so the
two are distinct dictionary entries; the value stored under
initial_condition is never read. -/
structure KwArgs where
  name : Option String
  initial_condition : Option InitialCondition
  IC : Option InitialCondition
deriving DecidableEq, Repr

/-- Python exceptions that add_group can raise. -/
inductive PyErr
  | keyError (k : String)
  | valueError
  | unboundLocalError
deriving DecidableEq, Repr

/-- Collection state of the Agents class (engine.py lines 101-135), with
positions, velocities and noise rows over exact rationals. A noise row is
the pair (noise[i,0], noise[i,1]) = (speed noise, angular noise). -/
structure Agents where
  N_agents : ℕ
  atype : List ℕ
  pos : List (ℚ × ℚ)
  vel : List (ℚ × ℚ)
  noise : List (ℚ × ℚ)
  N_groups : ℕ
  group_names : List String
  group : List ℕ
deriving DecidableEq, Repr

/-- Agent type names of the Agents class (self.atypes, line 118). -/
def atypesList : List String :=
  ["fixed", "blind", "ripo", "rinno"]

/-- Name of the dictionary key read at source line 189. -/
def icKey : String :=
  "IC"

/-- Model of the Python str.lower call of add_group (source line 222):
every character mapped to its lower-case form. -/
def pyLower (s : String) : String :=
  ⟨s.data.map Char.toLower⟩

/-- Resolution of the user initial condition (source lines 188-191):
when the key initial_condition is present the source reads kwargs[IC],
whose absence is a KeyError (returned as none here); otherwise the
default dictionary is used. -/
def resolveIC (kw : KwArgs) : Option InitialCondition :=
  if kw.initial_condition.isSome then kw.IC else some defaultIC

/-- Reports whether a position or velocity spec takes the
set_initial_positions / set_initial_velocities path of add_group
(type in [NoneType, str]) and is accepted there
(ptype in [None, random, shuffle], source lines 50 and 90). A spec of
string type with any other value leaves the local variable pos or vel
of the Geometry helper unassigned, raising UnboundLocalError at its
return statement. -/
def ptypeRandom (p : PySpec) : Option Bool :=
  match p with
  | PySpec.noneV => some true
  | PySpec.str s => if s = "random" ∨ s = "shuffle" then some true else none
  | PySpec.arr _ => some false

/-- Embedding of Engine.add_group (source lines 179-239). The numpy random
draws of set_initial_positions and set_initial_velocities are supplied by
the oracles randPos (count to rows) and randVel (count and speed vector to
rows). The result is the Agents state after the call together with the
exception raised, if any; mutations that the source performs before an
exception is raised (the increment of N_agents at line 218 before the
atype lookup of line 221) are kept, matching the in-place mutation order. -/
def addGroup (ag : Agents) (gtype : String) (N : ℕ) (kw : KwArgs)
    (randPos : ℕ → List (ℚ × ℚ)) (randVel : ℕ → List ℚ → List (ℚ × ℚ)) :
    Agents × Option PyErr :=
  let gname := kw.name.getD gtype
  match resolveIC kw with
  | none => (ag, some (PyErr.keyError icKey))
  | some ic =>
      let posQ : Option (List (ℚ × ℚ)) :=
        match ptypeRandom ic.position, ic.position with
        | none, _ => none
        | some true, _ => some (randPos N)
        | some false, PySpec.arr a => some a
        | some false, _ => some []
      match posQ with
      | none => (ag, some PyErr.unboundLocalError)
      | some pos =>
          let speeds : List ℚ :=
            match ic.speed with
            | SpeedSpec.num q => List.replicate N q
            | SpeedSpec.vec l => l
          let velQ : Option (List (ℚ × ℚ)) :=
            match ptypeRandom ic.velocity, ic.velocity with
            | none, _ => none
            | some true, _ => some (randVel N speeds)
            | some false, PySpec.arr a => some a
            | some false, _ => some []
          match velQ with
          | none => (ag, some PyErr.unboundLocalError)
          | some vel =>
              let noise0 := List.replicate N ((1 : ℚ), (1 : ℚ))
              let noise1 := noise0.map fun r => ((0 : ℚ), r.2)
              let noise := noise1.map fun r => (r.1, (1 : ℚ) / 10)
              let ag1 : Agents := { ag with N_agents := ag.N_agents + N }
              match atypesList.findIdx? (fun s => s = pyLower gtype) with
              | none => (ag1, some PyErr.valueError)
              | some t =>
                  let ag2 : Agents := { ag1 with
                    atype := ag1.atype ++ List.replicate N t
                    pos := ag1.pos ++ pos
                    vel := ag1.vel ++ vel
                    noise := ag1.noise ++ noise }
                  let grp : ℕ × List String × ℕ :=
                    match ag2.group_names.findIdx? (fun s => s = gname) with
                    | some j => (j, ag2.group_names, ag2.N_groups)
                    | none => (ag2.group_names.length,
                               ag2.group_names ++ [gname], ag2.N_groups + 1)
                  let ag3 : Agents := { ag2 with
                    group_names := grp.2.1
                    N_groups := grp.2.2
                    group := ag2.group ++ List.replicate N grp.1 }
                  (ag3, Option.none)

/-! Schedule-level model of the parallel per-step dispatch. -/

/-- One device buffer holding a position and velocity row per agent.
An entry none is a row whose value is undefined (either never written or
dependent on an unassigned kernel variable). -/
abbrev LaneBuf := List (Option (ℂ × ℂ))

/-- Output row of lane i of one kernel launch: the lane reads only its own
row of the source buffer, its type, its angular-noise coefficient and the
sample rng i k of its own stream at step k, exactly the inputs of
CUDA_step for that lane. -/
noncomputable def laneOut (cfg : ArenaCfg) (atype : List ℕ) (anoise : List ℝ)
    (rng : ℕ → ℕ → ℝ) (k : ℕ) (src : LaneBuf) (i : ℕ) : Option (ℂ × ℂ) :=
  (src.getD i none).bind fun pv =>
    cudaStepLane cfg (atype.getD i 0) pv.1 pv.2 (anoise.getD i 0) (rng i k)

/-- One kernel launch: the lanes listed in order each write their own row
of the destination buffer; order is the (arbitrary) sequence in which the
parallel lanes happen to commit their writes. Distinct lanes touch
distinct rows, and every lane reads only the source buffer. -/
noncomputable def dispatchStep (cfg : ArenaCfg) (atype : List ℕ)
    (anoise : List ℝ) (rng : ℕ → ℕ → ℝ) (k : ℕ) (src : LaneBuf)
    (order : List ℕ) (dst : LaneBuf) : LaneBuf :=
  order.foldl (fun d i => d.set i (laneOut cfg atype anoise rng k src i)) dst

/-- Double-buffered run: the pair holds (current buffer, idle buffer).
Step k launches the kernel with the current buffer as source and the idle
buffer as destination, then the roles swap, exactly the alternation of
Engine.step once a source buffer exists. orders k lists the write order of
the lanes of step k. -/
noncomputable def runPair (cfg : ArenaCfg) (atype : List ℕ) (anoise : List ℝ)
    (rng : ℕ → ℕ → ℝ) (orders : ℕ → List ℕ) (init : LaneBuf × LaneBuf) :
    ℕ → LaneBuf × LaneBuf
  | 0 => init
  | k + 1 =>
      let s := runPair cfg atype anoise rng orders init k
      (dispatchStep cfg atype anoise rng k s.1 (orders k) s.2, s.1)

/-! Theorems for the claims. -/

/-- C1: the claim states that at the start of every step both buffer pairs
hold a fully populated value for every agent index, in particular at step
index 0 under the parity rule. The code violates this: Engine.run uploads
the host arrays into (p0, v0) only, while (p1, v1) are fresh unwritten
device allocations, and for step index 0 (even) Engine.step passes
(p1, v1) as the kernel source. This theorem evaluates the model at the
failing input (a run with one agent, step 0): the selected source pair has
no written value in any slot, while the initial data sits in the pair that
step 0 uses as destination and overwrites. -/
theorem C1_step0_source_is_unwritten :
    stepSourceBuffers
        (runInitBuffers ⟨[((1 : ℚ) / 2, 0)], [((1 : ℚ) / 100, 0)]⟩) 0
      = ([none], [none]) ∧
    (runInitBuffers ⟨[((1 : ℚ) / 2, 0)], [((1 : ℚ) / 100, 0)]⟩).p0
      = [some ((1 : ℚ) / 2, 0)] ∧
    stepDestBuffers
        (runInitBuffers ⟨[((1 : ℚ) / 2, 0)], [((1 : ℚ) / 100, 0)]⟩) 0
      = ((runInitBuffers ⟨[((1 : ℚ) / 2, 0)], [((1 : ℚ) / 100, 0)]⟩).p0,
         (runInitBuffers ⟨[((1 : ℚ) / 2, 0)], [((1 : ℚ) / 100, 0)]⟩).v0) := by
  exact ⟨rfl, rfl, rfl⟩

/-- C2: the claim states that for a Fixed agent (atype 0) the kernel copies
position and velocity unchanged and does no further work for the lane. In
the source the fixed branch copies only the position rows and does not end
the lane: control reaches the update section, which rotates the velocity
by da + an where da was never assigned for atype 0, and overwrites both
destination rows with values depending on that unassigned variable. In the
model such a lane therefore produces an undefined destination row (none)
rather than the unchanged pair. -/
theorem C2_fixed_lane_is_overwritten (cfg : ArenaCfg) (p v : ℂ)
    (anoise s : ℝ) :
    cudaStepLane cfg 0 p v anoise s = none ∧
    cudaStepLane cfg 0 p v anoise s ≠ some (p, v) := by
  refine ⟨?_, ?_⟩ <;> simp [cudaStepLane, kernel_da]

/-- C3 counterexample: the claim states that every configured dimension
other than 2 raises a ConfigurationError synchronously during setup. The
source defines no such exception: for dimension 1 the parameter
serialization of Engine.run succeeds, and the update section of the kernel
writes nothing (its dimension match has the single case 2), so the
configuration is accepted and the kernel silently skips the update. -/
theorem C3_dim1_setup_succeeds :
    paramSerialization ⟨1, Arena.rectangular, [1], [true]⟩
      = RunSetup.ok [1, 1 / 2, 1] ∧
    kernelUpdateWrites 1 = false := by
  exact ⟨rfl, rfl⟩

/-- C3 amended: no ConfigurationError exists in the source. For an
unsupported dimension (anything other than 2) the kernel update section
never writes the destination rows; dimensions 1 and 3 pass the parameter
serialization of Engine.run without any error, and every dimension outside
1, 2, 3 makes Engine.run fail with an UnboundLocalError on param, not with
a configuration error. -/
theorem C3_unsupported_dim_behavior (g : Geometry) (h : g.dimension ≠ 2) :
    kernelUpdateWrites g.dimension = false ∧
    (g.dimension = 1 ∨ g.dimension = 3 →
      ∃ p, paramSerialization g = RunSetup.ok p) ∧
    (g.dimension ≠ 1 → g.dimension ≠ 3 →
      paramSerialization g = RunSetup.unboundLocalError) := by
  obtain ⟨d, ar, sh, pe⟩ := g
  simp only at h ⊢
  refine ⟨by simp [kernelUpdateWrites, h], ?_, ?_⟩
  · rintro (rfl | rfl)
    · exact ⟨_, rfl⟩
    · exact ⟨_, rfl⟩
  · intro h1 h3
    match d, h, h1, h3 with
    | 0, _, _, _ => rfl
    | (n + 4), _, _, _ => rfl
    | 1, _, h1, _ => exact absurd rfl h1
    | 2, h, _, _ => exact absurd rfl h
    | 3, _, _, h3 => exact absurd rfl h3

/-- C3 witness: the amended theorem applied at the concrete dimension-1
geometry of the counterexample. -/
theorem C3_unsupported_dim_behavior_witness :
    ((⟨1, Arena.rectangular, [1], [true]⟩ : Geometry).dimension ≠ 2) ∧
    (kernelUpdateWrites (⟨1, Arena.rectangular, [1], [true]⟩ : Geometry).dimension = false ∧
     ((⟨1, Arena.rectangular, [1], [true]⟩ : Geometry).dimension = 1 ∨
      (⟨1, Arena.rectangular, [1], [true]⟩ : Geometry).dimension = 3 →
      ∃ p, paramSerialization ⟨1, Arena.rectangular, [1], [true]⟩ = RunSetup.ok p) ∧
     ((⟨1, Arena.rectangular, [1], [true]⟩ : Geometry).dimension ≠ 1 →
      (⟨1, Arena.rectangular, [1], [true]⟩ : Geometry).dimension ≠ 3 →
      paramSerialization ⟨1, Arena.rectangular, [1], [true]⟩ = RunSetup.unboundLocalError)) :=
  ⟨by decide, C3_unsupported_dim_behavior ⟨1, Arena.rectangular, [1], [true]⟩ (by decide)⟩

/-- C10: calling add_group with the keyword argument initial_condition
present but without the keyword argument IC raises KeyError (the branch
reads kwargs[IC] rather than kwargs[initial_condition]) before any agent
is appended, and the Agents state is returned unchanged. -/
theorem C10_ic_key_mismatch_keyError (ag : Agents) (gtype : String) (N : ℕ)
    (kw : KwArgs) (randPos : ℕ → List (ℚ × ℚ))
    (randVel : ℕ → List ℚ → List (ℚ × ℚ))
    (hpresent : kw.initial_condition.isSome = true) (hic : kw.IC = none) :
    addGroup ag gtype N kw randPos randVel
      = (ag, some (PyErr.keyError icKey)) := by
  unfold addGroup resolveIC
  rw [hpresent, if_pos rfl, hic]

/-- C10 witness: the theorem applied to a concrete call in which the key
initial_condition is supplied and the key IC is not. -/
theorem C10_ic_key_mismatch_keyError_witness :
    ((⟨none, some defaultIC, none⟩ : KwArgs).initial_condition.isSome = true) ∧
    ((⟨none, some defaultIC, none⟩ : KwArgs).IC = none) ∧
    addGroup ⟨0, [], [], [], [], 0, [], []⟩ ("blind") 1
        ⟨none, some defaultIC, none⟩
        (fun n => List.replicate n (0, 0)) (fun n _ => List.replicate n (0, 0))
      = (⟨0, [], [], [], [], 0, [], []⟩, some (PyErr.keyError icKey)) :=
  ⟨rfl, rfl,
   C10_ic_key_mismatch_keyError ⟨0, [], [], [], [], 0, [], []⟩ ("blind") 1
     ⟨none, some defaultIC, none⟩
     (fun n => List.replicate n (0, 0)) (fun n _ => List.replicate n (0, 0))
     rfl rfl⟩

/-- C9: every agent created by add_group receives the hard-coded noise
coefficients (speed noise 0, angular noise 1/10), regardless of the
arguments supplied by the caller: whenever a call to add_group returns
without an exception, the noise rows appended for the N new agents are
exactly N copies of (0, 1/10), for every gtype, every kwargs dictionary
and every random oracle. No argument of add_group can change them. -/
theorem C9_noise_coefficients_hardcoded (ag : Agents) (gtype : String)
    (N : ℕ) (kw : KwArgs) (randPos : ℕ → List (ℚ × ℚ))
    (randVel : ℕ → List ℚ → List (ℚ × ℚ))
    (hok : (addGroup ag gtype N kw randPos randVel).2 = Option.none) :
    (addGroup ag gtype N kw randPos randVel).1.noise
      = ag.noise ++ List.replicate N ((0 : ℚ), 1 / 10) := by
  unfold addGroup at hok ⊢
  split at hok
  · simp at hok
  · dsimp only at hok ⊢
    split at hok
    · simp at hok
    · split at hok
      · simp at hok
      · split at hok
        · simp at hok
        · simp [List.map_replicate]

/-- C9 witness: a concrete successful call (empty initial state, one blind
agent, default arguments, trivial oracles) together with the appended
noise row. -/
theorem C9_noise_coefficients_hardcoded_witness :
    (addGroup ⟨0, [], [], [], [], 0, [], []⟩ ("blind") 2 ⟨none, none, none⟩
        (fun n => List.replicate n (0, 0))
        (fun n _ => List.replicate n (0, 0))).2 = Option.none ∧
    (addGroup ⟨0, [], [], [], [], 0, [], []⟩ ("blind") 2 ⟨none, none, none⟩
        (fun n => List.replicate n (0, 0))
        (fun n _ => List.replicate n (0, 0))).1.noise
      = ([] : List (ℚ × ℚ)) ++ List.replicate 2 ((0 : ℚ), 1 / 10) :=
  ⟨by decide,
   C9_noise_coefficients_hardcoded ⟨0, [], [], [], [], 0, [], []⟩ ("blind") 2
     ⟨none, none, none⟩ (fun n => List.replicate n (0, 0))
     (fun n _ => List.replicate n (0, 0)) (by decide)⟩

/-- C4: rectangular reflective bounce. For an axis with reflective
(non-periodic) boundary and half-extent R, a candidate coordinate R + δ
(δ > 0) resolves to R - δ with the velocity component on that axis
negated; a candidate -R - δ resolves to -R + δ with the component negated;
a candidate inside the closed interval from -R to R leaves coordinate and
velocity component unchanged. Stated for both axes of assign_2d with both
periodic flags false. -/
theorem C4_rect_reflective_bounce (Rx Ry : ℝ) (z0 z1 zv : ℂ) (δ : ℝ)
    (hδ : 0 < δ) (hRx : 0 ≤ Rx) (hRy : 0 ≤ Ry) :
    (z1.re = Rx + δ →
      (assign_2d z0 z1 zv Arena.rectangular Rx Ry false false).px = Rx - δ ∧
      (assign_2d z0 z1 zv Arena.rectangular Rx Ry false false).vx = -zv.re) ∧
    (z1.re = -Rx - δ →
      (assign_2d z0 z1 zv Arena.rectangular Rx Ry false false).px = -Rx + δ ∧
      (assign_2d z0 z1 zv Arena.rectangular Rx Ry false false).vx = -zv.re) ∧
    (-Rx ≤ z1.re → z1.re ≤ Rx →
      (assign_2d z0 z1 zv Arena.rectangular Rx Ry false false).px = z1.re ∧
      (assign_2d z0 z1 zv Arena.rectangular Rx Ry false false).vx = zv.re) ∧
    (z1.im = Ry + δ →
      (assign_2d z0 z1 zv Arena.rectangular Rx Ry false false).py = Ry - δ ∧
      (assign_2d z0 z1 zv Arena.rectangular Rx Ry false false).vy = -zv.im) ∧
    (z1.im = -Ry - δ →
      (assign_2d z0 z1 zv Arena.rectangular Rx Ry false false).py = -Ry + δ ∧
      (assign_2d z0 z1 zv Arena.rectangular Rx Ry false false).vy = -zv.im) ∧
    (-Ry ≤ z1.im → z1.im ≤ Ry →
      (assign_2d z0 z1 zv Arena.rectangular Rx Ry false false).py = z1.im ∧
      (assign_2d z0 z1 zv Arena.rectangular Rx Ry false false).vy = zv.im) := by
  unfold assign_2d
  refine ⟨fun h => ?_, fun h => ?_, fun h1 h2 => ?_,
          fun h => ?_, fun h => ?_, fun h1 h2 => ?_⟩ <;>
    simp only [Bool.false_eq_true, if_false] <;>
    split_ifs <;>
    constructor <;>
    dsimp only <;>
    linarith

/-- C4 witness: the theorem applied at half-extents (1, 1), candidate
position (3/2, -3/2), velocity (2, 5) and overshoot 1/2. -/
theorem C4_rect_reflective_bounce_witness :
    (0 : ℝ) < 1 / 2 ∧
    ((((⟨3 / 2, -(3 / 2)⟩ : ℂ)).re = 1 + 1 / 2 →
      (assign_2d 0 ⟨3 / 2, -(3 / 2)⟩ ⟨2, 5⟩ Arena.rectangular 1 1 false false).px = 1 - 1 / 2 ∧
      (assign_2d 0 ⟨3 / 2, -(3 / 2)⟩ ⟨2, 5⟩ Arena.rectangular 1 1 false false).vx = -(⟨2, 5⟩ : ℂ).re) ∧
     (((⟨3 / 2, -(3 / 2)⟩ : ℂ)).re = -1 - 1 / 2 →
      (assign_2d 0 ⟨3 / 2, -(3 / 2)⟩ ⟨2, 5⟩ Arena.rectangular 1 1 false false).px = -1 + 1 / 2 ∧
      (assign_2d 0 ⟨3 / 2, -(3 / 2)⟩ ⟨2, 5⟩ Arena.rectangular 1 1 false false).vx = -(⟨2, 5⟩ : ℂ).re) ∧
     (-1 ≤ ((⟨3 / 2, -(3 / 2)⟩ : ℂ)).re → ((⟨3 / 2, -(3 / 2)⟩ : ℂ)).re ≤ 1 →
      (assign_2d 0 ⟨3 / 2, -(3 / 2)⟩ ⟨2, 5⟩ Arena.rectangular 1 1 false false).px = (⟨3 / 2, -(3 / 2)⟩ : ℂ).re ∧
      (assign_2d 0 ⟨3 / 2, -(3 / 2)⟩ ⟨2, 5⟩ Arena.rectangular 1 1 false false).vx = (⟨2, 5⟩ : ℂ).re) ∧
     (((⟨3 / 2, -(3 / 2)⟩ : ℂ)).im = 1 + 1 / 2 →
      (assign_2d 0 ⟨3 / 2, -(3 / 2)⟩ ⟨2, 5⟩ Arena.rectangular 1 1 false false).py = 1 - 1 / 2 ∧
      (assign_2d 0 ⟨3 / 2, -(3 / 2)⟩ ⟨2, 5⟩ Arena.rectangular 1 1 false false).vy = -(⟨2, 5⟩ : ℂ).im) ∧
     (((⟨3 / 2, -(3 / 2)⟩ : ℂ)).im = -1 - 1 / 2 →
      (assign_2d 0 ⟨3 / 2, -(3 / 2)⟩ ⟨2, 5⟩ Arena.rectangular 1 1 false false).py = -1 + 1 / 2 ∧
      (assign_2d 0 ⟨3 / 2, -(3 / 2)⟩ ⟨2, 5⟩ Arena.rectangular 1 1 false false).vy = -(⟨2, 5⟩ : ℂ).im) ∧
     (-1 ≤ ((⟨3 / 2, -(3 / 2)⟩ : ℂ)).im → ((⟨3 / 2, -(3 / 2)⟩ : ℂ)).im ≤ 1 →
      (assign_2d 0 ⟨3 / 2, -(3 / 2)⟩ ⟨2, 5⟩ Arena.rectangular 1 1 false false).py = (⟨3 / 2, -(3 / 2)⟩ : ℂ).im ∧
      (assign_2d 0 ⟨3 / 2, -(3 / 2)⟩ ⟨2, 5⟩ Arena.rectangular 1 1 false false).vy = (⟨2, 5⟩ : ℂ).im)) :=
  ⟨by norm_num,
   C4_rect_reflective_bounce 1 1 0 ⟨3 / 2, -(3 / 2)⟩ ⟨2, 5⟩ (1 / 2)
     (by norm_num) (by norm_num) (by norm_num)⟩

/-- C7: Scenario A. One Blind agent (atype 1) in a rectangular arena with
half-extents (1, 1), X axis periodic and Y axis reflective, position
(0.999, 0), velocity (0.01, 0) and zero angular-noise coefficient: after
one application of the kernel lane the candidate x coordinate 1.009 wraps
to -0.991, y stays 0, and the velocity is unchanged, whatever normal
sample the lane draws. -/
theorem C7_scenarioA (s : ℝ) :
    cudaStepLane ⟨Arena.rectangular, 1, 1, true, false⟩ 1
        ⟨0.999, 0⟩ ⟨0.01, 0⟩ 0 s
      = some (⟨-0.991, 0⟩, ⟨0.01, 0⟩) := by
  unfold cudaStepLane kernel_da
  norm_num
  unfold assign_2d
  norm_num [Complex.add_re, Complex.add_im]

/-- Modulus of a cmath.rect value: the absolute value of the requested
modulus (negative moduli land at the opposite phase). -/
theorem abs_rect (r θ : ℝ) : Complex.abs (rect r θ) = |r| := by
  unfold rect
  rw [map_mul, Complex.abs_ofReal, Complex.abs_exp_ofReal_mul_I, mul_one]

/-- Product of two unit-phase factors adds the angles. -/
theorem exp_I_mul_add (a b : ℝ) :
    Complex.exp ((a : ℂ) * Complex.I) * Complex.exp ((b : ℂ) * Complex.I)
      = Complex.exp (((a + b : ℝ) : ℂ) * Complex.I) := by
  rw [← Complex.exp_add]
  push_cast
  ring_nf

/-- Conjugation in polar form. -/
theorem conj_polar (zv : ℂ) :
    (starRingEnd ℂ) zv
      = ((Complex.abs zv : ℝ) : ℂ) *
          Complex.exp (((-Complex.arg zv : ℝ) : ℂ) * Complex.I) := by
  conv_lhs => rw [← Complex.abs_mul_exp_arg_mul_I zv]
  rw [map_mul, Complex.conj_ofReal]
  congr 1
  rw [← Complex.exp_conj, map_mul, Complex.conj_ofReal, Complex.conj_I]
  push_cast
  ring_nf

/-- Key identity behind the reflexive circular bounce: rotating the
incident velocity by pi - 2 (phase zv - phi), as the source does, is the
same as reflecting the reversed incident velocity across the line of
direction phi (the map w to conj w times exp of 2 i phi), which is the
specular-reflection law about the normal direction phi. -/
theorem reflect_about (zv : ℂ) (φ : ℝ) :
    zv * Complex.exp (((Real.pi - 2 * (Complex.arg zv - φ) : ℝ) : ℂ) * Complex.I)
      = -(starRingEnd ℂ) zv *
          Complex.exp (((2 * φ : ℝ) : ℂ) * Complex.I) := by
  have hang : Complex.arg zv + (Real.pi - 2 * (Complex.arg zv - φ))
      = Real.pi + (2 * φ - Complex.arg zv) := by ring
  have hang2 : -Complex.arg zv + 2 * φ = 2 * φ - Complex.arg zv := by ring
  calc zv * Complex.exp (((Real.pi - 2 * (Complex.arg zv - φ) : ℝ) : ℂ) * Complex.I)
      = ((Complex.abs zv : ℝ) : ℂ) *
          (Complex.exp (((Complex.arg zv : ℝ) : ℂ) * Complex.I) *
           Complex.exp (((Real.pi - 2 * (Complex.arg zv - φ) : ℝ) : ℂ) * Complex.I)) := by
        rw [← mul_assoc, Complex.abs_mul_exp_arg_mul_I zv]
    _ = ((Complex.abs zv : ℝ) : ℂ) *
          Complex.exp (((Real.pi + (2 * φ - Complex.arg zv) : ℝ) : ℂ) * Complex.I) := by
        rw [exp_I_mul_add, hang]
    _ = ((Complex.abs zv : ℝ) : ℂ) *
          (Complex.exp ((Real.pi : ℂ) * Complex.I) *
           Complex.exp (((2 * φ - Complex.arg zv : ℝ) : ℂ) * Complex.I)) := by
        rw [exp_I_mul_add]
    _ = -(((Complex.abs zv : ℝ) : ℂ) *
           Complex.exp (((2 * φ - Complex.arg zv : ℝ) : ℂ) * Complex.I)) := by
        rw [Complex.exp_pi_mul_I]
        ring
    _ = -(starRingEnd ℂ) zv *
          Complex.exp (((2 * φ : ℝ) : ℂ) * Complex.I) := by
        rw [conj_polar, neg_mul, mul_assoc, exp_I_mul_add, hang2]

/-- C5: circular periodic wrap. In a circular arena of radius R with the
periodic flag set, a candidate z1 of modulus R + δ (δ > 0) is remapped to
the point with polar representation (R - δ, phase z1 + π), that is, rect
(R - δ) (phase + π); its modulus is R - δ whenever δ ≤ R; the velocity is
returned entirely unchanged; and any candidate of modulus at most R is
left unchanged together with the velocity. -/
theorem C5_circ_periodic_wrap (R Ry : ℝ) (pY : Bool) (z0 z1 zv : ℂ) (δ : ℝ)
    (hδ : 0 < δ) (habs : Complex.abs z1 = R + δ) :
    (assign_2d z0 z1 zv Arena.circular R Ry true pY).px
      = (rect (R - δ) (Complex.arg z1 + Real.pi)).re ∧
    (assign_2d z0 z1 zv Arena.circular R Ry true pY).py
      = (rect (R - δ) (Complex.arg z1 + Real.pi)).im ∧
    (assign_2d z0 z1 zv Arena.circular R Ry true pY).vx = zv.re ∧
    (assign_2d z0 z1 zv Arena.circular R Ry true pY).vy = zv.im ∧
    (δ ≤ R →
      Complex.abs ⟨(assign_2d z0 z1 zv Arena.circular R Ry true pY).px,
                   (assign_2d z0 z1 zv Arena.circular R Ry true pY).py⟩
        = R - δ) ∧
    (∀ z2 : ℂ, Complex.abs z2 ≤ R →
      (assign_2d z0 z2 zv Arena.circular R Ry true pY).px = z2.re ∧
      (assign_2d z0 z2 zv Arena.circular R Ry true pY).py = z2.im ∧
      (assign_2d z0 z2 zv Arena.circular R Ry true pY).vx = zv.re ∧
      (assign_2d z0 z2 zv Arena.circular R Ry true pY).vy = zv.im) := by
  have hgt : R < Complex.abs z1 := by rw [habs]; linarith
  have hr : 2 * R - Complex.abs z1 = R - δ := by rw [habs]; ring
  unfold assign_2d
  rw [if_pos hgt, if_pos rfl]
  refine ⟨by rw [hr], by rw [hr], rfl, rfl, fun hle => ?_, fun z2 h2 => ?_⟩
  · rw [hr]
    simp only [Complex.eta]
    rw [abs_rect, abs_of_nonneg (by linarith)]
  · rw [if_neg (by exact not_lt.mpr h2)]
    exact ⟨rfl, rfl, rfl, rfl⟩

/-- C5 witness: radius 2, candidate the real point 3 (modulus 2 + 1),
overshoot 1. -/
theorem C5_circ_periodic_wrap_witness :
    (0 : ℝ) < 1 ∧ Complex.abs (((3 : ℝ) : ℂ)) = 2 + 1 ∧
    ((assign_2d 0 (((3 : ℝ) : ℂ)) ⟨4, 5⟩ Arena.circular 2 1 true false).px
      = (rect (2 - 1) (Complex.arg (((3 : ℝ) : ℂ)) + Real.pi)).re ∧
     (assign_2d 0 (((3 : ℝ) : ℂ)) ⟨4, 5⟩ Arena.circular 2 1 true false).py
      = (rect (2 - 1) (Complex.arg (((3 : ℝ) : ℂ)) + Real.pi)).im ∧
     (assign_2d 0 (((3 : ℝ) : ℂ)) ⟨4, 5⟩ Arena.circular 2 1 true false).vx
      = (⟨4, 5⟩ : ℂ).re ∧
     (assign_2d 0 (((3 : ℝ) : ℂ)) ⟨4, 5⟩ Arena.circular 2 1 true false).vy
      = (⟨4, 5⟩ : ℂ).im ∧
     ((1 : ℝ) ≤ 2 →
      Complex.abs ⟨(assign_2d 0 (((3 : ℝ) : ℂ)) ⟨4, 5⟩ Arena.circular 2 1 true false).px,
                   (assign_2d 0 (((3 : ℝ) : ℂ)) ⟨4, 5⟩ Arena.circular 2 1 true false).py⟩
        = 2 - 1) ∧
     (∀ z2 : ℂ, Complex.abs z2 ≤ 2 →
      (assign_2d 0 z2 ⟨4, 5⟩ Arena.circular 2 1 true false).px = z2.re ∧
      (assign_2d 0 z2 ⟨4, 5⟩ Arena.circular 2 1 true false).py = z2.im ∧
      (assign_2d 0 z2 ⟨4, 5⟩ Arena.circular 2 1 true false).vx = (⟨4, 5⟩ : ℂ).re ∧
      (assign_2d 0 z2 ⟨4, 5⟩ Arena.circular 2 1 true false).vy = (⟨4, 5⟩ : ℂ).im)) :=
  ⟨by norm_num,
   by rw [Complex.abs_ofReal]; norm_num,
   C5_circ_periodic_wrap 2 1 false 0 (((3 : ℝ) : ℂ)) ⟨4, 5⟩ 1
     (by norm_num) (by rw [Complex.abs_ofReal]; norm_num)⟩

/-- C6: circular reflexive bounce is elastic. When the candidate position
z0 + zv leaves the disc of radius R, the resolved velocity of assign_2d
has the same modulus as the incident velocity, and it equals the
reflection of the reversed incident velocity across the line of direction
phi, the phase of the computed crossing point rect R phi on the boundary
circle: as a complex map, resolved velocity = - conj zv * exp (2 i phi).
This equality is exactly the specular law: the angular offsets of the
outgoing ray and of the reversed incident ray from the local radius
(normal) direction phi are negatives of each other, so the angle of
incidence equals the angle of reflection, and the first conjunct is the
conservation of the modulus. -/
theorem C6_circ_reflective_elastic (R Ry : ℝ) (pY : Bool) (z0 zv : ℂ)
    (h : R < Complex.abs (z0 + zv)) :
    Complex.abs ⟨(assign_2d z0 (z0 + zv) zv Arena.circular R Ry false pY).vx,
                 (assign_2d z0 (z0 + zv) zv Arena.circular R Ry false pY).vy⟩
      = Complex.abs zv ∧
    (⟨(assign_2d z0 (z0 + zv) zv Arena.circular R Ry false pY).vx,
      (assign_2d z0 (z0 + zv) zv Arena.circular R Ry false pY).vy⟩ : ℂ)
      = -(starRingEnd ℂ) zv *
          Complex.exp (((2 * crossingPhase R z0 zv : ℝ) : ℂ) * Complex.I) := by
  unfold assign_2d
  rw [if_pos h]
  simp only [Bool.false_eq_true, if_false, Complex.eta]
  constructor
  · rw [map_mul, Complex.abs_exp_ofReal_mul_I, mul_one]
  · exact reflect_about zv (crossingPhase R z0 zv)

/-- C6 witness: unit disc, departure from the origin with velocity 3. -/
theorem C6_circ_reflective_elastic_witness :
    (1 : ℝ) < Complex.abs (0 + ((3 : ℝ) : ℂ)) ∧
    (Complex.abs ⟨(assign_2d 0 (0 + ((3 : ℝ) : ℂ)) (((3 : ℝ) : ℂ)) Arena.circular 1 1 false false).vx,
                  (assign_2d 0 (0 + ((3 : ℝ) : ℂ)) (((3 : ℝ) : ℂ)) Arena.circular 1 1 false false).vy⟩
       = Complex.abs (((3 : ℝ) : ℂ)) ∧
     (⟨(assign_2d 0 (0 + ((3 : ℝ) : ℂ)) (((3 : ℝ) : ℂ)) Arena.circular 1 1 false false).vx,
       (assign_2d 0 (0 + ((3 : ℝ) : ℂ)) (((3 : ℝ) : ℂ)) Arena.circular 1 1 false false).vy⟩ : ℂ)
       = -(starRingEnd ℂ) (((3 : ℝ) : ℂ)) *
           Complex.exp (((2 * crossingPhase 1 0 (((3 : ℝ) : ℂ)) : ℝ) : ℂ) * Complex.I)) :=
  ⟨by rw [zero_add, Complex.abs_ofReal]; norm_num,
   C6_circ_reflective_elastic 1 1 false 0 (((3 : ℝ) : ℂ))
     (by rw [zero_add, Complex.abs_ofReal]; norm_num)⟩

/-- Unfolding of one lane commit of a kernel launch. -/
theorem dispatchStep_cons (cfg : ArenaCfg) (atype : List ℕ) (anoise : List ℝ)
    (rng : ℕ → ℕ → ℝ) (k : ℕ) (src : LaneBuf) (i : ℕ) (rest : List ℕ)
    (dst : LaneBuf) :
    dispatchStep cfg atype anoise rng k src (i :: rest) dst
      = dispatchStep cfg atype anoise rng k src rest
          (dst.set i (laneOut cfg atype anoise rng k src i)) :=
  rfl

/-- A kernel launch never changes the size of the destination buffer. -/
theorem dispatchStep_length (cfg : ArenaCfg) (atype : List ℕ) (anoise : List ℝ)
    (rng : ℕ → ℕ → ℝ) (k : ℕ) (src : LaneBuf) (order : List ℕ)
    (dst : LaneBuf) :
    (dispatchStep cfg atype anoise rng k src order dst).length = dst.length := by
  induction order generalizing dst with
  | nil => rfl
  | cons i rest ih =>
      rw [dispatchStep_cons, ih, List.length_set]

/-- Row j after a kernel launch: the lane value if lane j committed
(whatever the order and however often), the untouched destination row
otherwise. This is the disjoint-write discipline: each lane writes only
its own row, and the value written does not depend on the commit order. -/
theorem dispatchStep_getElem? (cfg : ArenaCfg) (atype : List ℕ)
    (anoise : List ℝ) (rng : ℕ → ℕ → ℝ) (k : ℕ) (src : LaneBuf)
    (order : List ℕ) (dst : LaneBuf) (j : ℕ) :
    (dispatchStep cfg atype anoise rng k src order dst)[j]?
      = if j ∈ order ∧ j < dst.length
        then some (laneOut cfg atype anoise rng k src j) else dst[j]? := by
  induction order generalizing dst with
  | nil => simp [dispatchStep]
  | cons i rest ih =>
      rw [dispatchStep_cons, ih, List.length_set]
      by_cases hij : i = j
      · subst hij
        by_cases hj : i < dst.length
        · by_cases hmem : i ∈ rest <;>
            simp [hj, hmem, List.getElem?_set_eq_of_lt _ hj]
        · have h1 : dst[i]? = none := List.getElem?_eq_none (by omega)
          have h2 : (dst.set i (laneOut cfg atype anoise rng k src i))[i]?
              = none := List.getElem?_eq_none (by rw [List.length_set]; omega)
          by_cases hmem : i ∈ rest <;> simp [hj, hmem, h1, h2]
      · rw [List.getElem?_set_ne hij]
        by_cases hmem : j ∈ rest <;> by_cases hj : j < dst.length <;>
          simp [hmem, hj, Ne.symm hij]

/-- Schedule independence of one step: two launches over the same source
and destination whose commit orders each cover every row produce the same
destination buffer, whatever the orders. -/
theorem dispatchStep_covering (cfg : ArenaCfg) (atype : List ℕ)
    (anoise : List ℝ) (rng : ℕ → ℕ → ℝ) (k : ℕ) (src : LaneBuf)
    (order1 order2 : List ℕ) (dst : LaneBuf)
    (h1 : ∀ j, j < dst.length → j ∈ order1)
    (h2 : ∀ j, j < dst.length → j ∈ order2) :
    dispatchStep cfg atype anoise rng k src order1 dst
      = dispatchStep cfg atype anoise rng k src order2 dst := by
  apply List.ext_getElem?
  intro j
  rw [dispatchStep_getElem?, dispatchStep_getElem?]
  by_cases hj : j < dst.length
  · simp [hj, h1 j hj, h2 j hj]
  · simp [hj]

/-- C8: determinism of the noise stream and of the trajectories. Both runs
draw their per-lane noise streams from the same derivation function
applied to the same seed (lane i consumes the sample derive seed i k at
step k, a function of the process-wide seed, the lane index and the step
index only); they start from the same buffers and dispatch the same step
sequence; their per-step lane commit orders are arbitrary, provided each
step commits every lane. Then the double-buffered states coincide at every
step count, so the trajectories (and the noise samples consumed) are
identical across the two runs. -/
theorem C8_same_seed_same_trajectories (cfg : ArenaCfg) (atype : List ℕ)
    (anoise : List ℝ) (derive : ℕ → ℕ → ℕ → ℝ) (seed : ℕ)
    (orders1 orders2 : ℕ → List ℕ) (init : LaneBuf × LaneBuf) (n : ℕ)
    (hlen1 : init.1.length = n) (hlen2 : init.2.length = n)
    (hcov1 : ∀ k j, j < n → j ∈ orders1 k)
    (hcov2 : ∀ k j, j < n → j ∈ orders2 k) :
    ∀ k, runPair cfg atype anoise (derive seed) orders1 init k
       = runPair cfg atype anoise (derive seed) orders2 init k := by
  have key : ∀ k,
      runPair cfg atype anoise (derive seed) orders1 init k
        = runPair cfg atype anoise (derive seed) orders2 init k ∧
      (runPair cfg atype anoise (derive seed) orders1 init k).1.length = n ∧
      (runPair cfg atype anoise (derive seed) orders1 init k).2.length = n := by
    intro k
    induction k with
    | zero => exact ⟨rfl, hlen1, hlen2⟩
    | succ k ih =>
        obtain ⟨heq, hl1, hl2⟩ := ih
        have hstep :
            dispatchStep cfg atype anoise (derive seed) k
                (runPair cfg atype anoise (derive seed) orders1 init k).1
                (orders1 k)
                (runPair cfg atype anoise (derive seed) orders1 init k).2
              = dispatchStep cfg atype anoise (derive seed) k
                (runPair cfg atype anoise (derive seed) orders2 init k).1
                (orders2 k)
                (runPair cfg atype anoise (derive seed) orders2 init k).2 := by
          rw [← heq]
          exact dispatchStep_covering cfg atype anoise (derive seed) k
            (runPair cfg atype anoise (derive seed) orders1 init k).1
            (orders1 k) (orders2 k)
            (runPair cfg atype anoise (derive seed) orders1 init k).2
            (fun j hj => hcov1 k j (by omega))
            (fun j hj => hcov2 k j (by omega))
        refine ⟨?_, ?_, ?_⟩
        · simp only [runPair]
          rw [hstep, heq]
        · simp only [runPair]
          rw [dispatchStep_length]
          exact hl2
        · simp only [runPair]
          exact hl1
  exact fun k => (key k).1

/-- C8 witness: one lane, a constant derivation function, the two commit
schedules one commit versus two redundant commits of the lane. -/
theorem C8_same_seed_same_trajectories_witness :
    ([some (((0 : ℂ)), ((0 : ℂ)))] : LaneBuf).length = 1 ∧
    ([none] : LaneBuf).length = 1 ∧
    (∀ k j : ℕ, j < 1 → j ∈ (fun _ : ℕ => [0]) k) ∧
    (∀ k j : ℕ, j < 1 → j ∈ (fun _ : ℕ => [0, 0]) k) ∧
    (∀ k, runPair ⟨Arena.rectangular, 1, 1, true, false⟩ [1] [0]
            ((fun _ _ _ => 0) 0) (fun _ : ℕ => [0])
            ([some (((0 : ℂ)), ((0 : ℂ)))], [none]) k
        = runPair ⟨Arena.rectangular, 1, 1, true, false⟩ [1] [0]
            ((fun _ _ _ => 0) 0) (fun _ : ℕ => [0, 0])
            ([some (((0 : ℂ)), ((0 : ℂ)))], [none]) k) :=
  ⟨rfl, rfl,
   fun _ j hj => by simp [Nat.lt_one_iff] at hj; simp [hj],
   fun _ j hj => by simp [Nat.lt_one_iff] at hj; simp [hj],
   C8_same_seed_same_trajectories ⟨Arena.rectangular, 1, 1, true, false⟩
     [1] [0] (fun _ _ _ => 0) 0 (fun _ : ℕ => [0]) (fun _ : ℕ => [0, 0])
     ([some (((0 : ℂ)), ((0 : ℂ)))], [none]) 1 rfl rfl
     (fun _ j hj => by simp [Nat.lt_one_iff] at hj; simp [hj])
     (fun _ j hj => by simp [Nat.lt_one_iff] at hj; simp [hj])⟩

end MIDAS
